import Mathlib

/-
Shallow embedding of the DocSpot appointment-booking client logic.

The embedding translates the business logic of the source files:
  - src/src/types/index.ts                          (data model)
  - src/src/pages/Appointments/AppointmentList.tsx  (fetchAppointments,
    updateAppointmentStatus, the status action buttons, filteredAppointments)
  - src/unnamed/part_000                            (DoctorList.fetchDoctors,
    filteredDoctors; BookAppointment.fetchDoctor, onSubmit, getAvailableDates,
    timeSlots)

The backing record store is modelled as an explicit `Store` value holding the
doctor and appointment tables; each remote query is translated into the list
operation it performs.  Timestamps (`created_at`) are modelled as `Nat`
(the store orders rows by the timestamp value).
-/

namespace DocSpot

/-- Roles of `User.role` in src/src/types/index.ts. -/
inductive Role where
  | patient
  | doctor
  | admin
deriving DecidableEq, Fintype

/-- Values of `Doctor.status` in src/src/types/index.ts. -/
inductive DoctorStatus where
  | pending
  | approved
  | rejected
deriving DecidableEq, Fintype

/-- Values of `Appointment.status` in src/src/types/index.ts. -/
inductive ApptStatus where
  | pending
  | confirmed
  | cancelled
  | completed
deriving DecidableEq, Fintype

/-- The `User` record of src/src/types/index.ts. -/
structure User where
  id : String
  email : String
  role : Role
  full_name : String
  phone : Option String := none
  created_at : Nat := 0
deriving DecidableEq

/-- The `Doctor` record of src/src/types/index.ts.  The `user` field models
the relational embedding `user:users(*)` used by the queries. -/
structure Doctor where
  id : String
  user_id : String
  specialty : String
  experience_years : Nat := 0
  qualification : String := ""
  consultation_fee : Nat := 0
  location : String := ""
  bio : Option String := none
  status : DoctorStatus
  created_at : Nat := 0
  user : Option User := none
deriving DecidableEq

/-- The `Appointment` record of src/src/types/index.ts. -/
structure Appointment where
  id : String
  patient_id : String
  doctor_id : String
  appointment_date : String := ""
  appointment_time : String := ""
  status : ApptStatus
  notes : Option String := none
  created_at : Nat := 0
deriving DecidableEq

/-- The backing record store: the `doctors` and `appointments` tables. -/
structure Store where
  doctors : List Doctor
  appointments : List Appointment
deriving DecidableEq

/-- Characters of a string, lower-cased; models `s.toLowerCase()`. -/
def lowerStr (s : String) : List Char :=
  s.data.map Char.toLower

/-- Whether `needle` is a leading segment of `hay` (over char lists). -/
def startsWithCs : List Char → List Char → Bool
  | [], _ => true
  | _ :: _, [] => false
  | a :: as, b :: bs => a == b && startsWithCs as bs

/-- Whether `needle` occurs contiguously inside `hay`; models
JavaScript `hay.includes(needle)` over char lists. -/
def containsCs (needle : List Char) : List Char → Bool
  | [] => needle.isEmpty
  | c :: rest => startsWithCs needle (c :: rest) || containsCs needle rest

/-- Models `hay.toLowerCase().includes(needle.toLowerCase())`. -/
def strIncludes (hay needle : String) : Bool :=
  containsCs (lowerStr needle) (lowerStr hay)

/-- Specification-side predicate: `needle` is a case-insensitive contiguous
substring of `hay`. -/
def CISubstr (needle hay : String) : Prop :=
  ∃ pre post, lowerStr hay = pre ++ lowerStr needle ++ post

/-- Models `fetchDoctors` of DoctorList (src/unnamed/part_000, lines 26-43):
fetch every doctor row whose status equals approved. -/
def fetchDoctors (store : Store) : List Doctor :=
  store.doctors.filter (fun d => d.status == DoctorStatus.approved)

/-- The free-text match of `filteredDoctors` (src/unnamed/part_000,
lines 46-48): the term matches the joined user full name (falsy when the
joined user is absent) or the specialty, case-insensitively. -/
def matchesSearch (d : Doctor) (term : String) : Bool :=
  (match d.user with
   | some u => strIncludes u.full_name term
   | none => false)
  || strIncludes d.specialty term

/-- Models `filteredDoctors` of DoctorList (src/unnamed/part_000, lines 45-54):
conjunction of the free-text match, the specialty-equality filter and the
location-equality filter (an empty selection disables a filter, as the
JavaScript `!selected` test does). -/
def filteredDoctors (doctors : List Doctor)
    (searchTerm selectedSpecialty selectedLocation : String) : List Doctor :=
  doctors.filter fun d =>
    matchesSearch d searchTerm
    && (selectedSpecialty == "" || d.specialty == selectedSpecialty)
    && (selectedLocation == "" || d.location == selectedLocation)

/-- The DoctorDirectory list operation: the approved fetch followed by the
client-side filters. -/
def doctorDirectoryList (store : Store) (term spec loc : String) : List Doctor :=
  filteredDoctors (fetchDoctors store) term spec loc

theorem startsWithCs_iff (n : List Char) :
    ∀ h : List Char, startsWithCs n h = true ↔ ∃ t, h = n ++ t := by
  induction n with
  | nil =>
    intro h
    simp [startsWithCs]
  | cons a as ih =>
    intro h
    cases h with
    | nil =>
      simp [startsWithCs]
    | cons b bs =>
      simp only [startsWithCs, Bool.and_eq_true, beq_iff_eq, ih bs]
      constructor
      · rintro ⟨rfl, t, rfl⟩
        exact ⟨t, rfl⟩
      · rintro ⟨t, ht⟩
        injection ht with h1 h2
        exact ⟨h1.symm, t, h2⟩

theorem containsCs_iff (n : List Char) :
    ∀ h : List Char, containsCs n h = true ↔ ∃ pre post, h = pre ++ n ++ post := by
  intro h
  induction h with
  | nil =>
    simp only [containsCs, List.isEmpty_iff]
    constructor
    · rintro rfl
      exact ⟨[], [], rfl⟩
    · rintro ⟨pre, post, hp⟩
      rcases List.append_eq_nil.mp (hp.symm) with ⟨hp1, hp2⟩
      exact (List.append_eq_nil.mp hp1).2
  | cons c rest ih =>
    simp only [containsCs, Bool.or_eq_true, startsWithCs_iff, ih]
    constructor
    · rintro (⟨t, ht⟩ | ⟨pre, post, hp⟩)
      · exact ⟨[], t, by simpa using ht⟩
      · exact ⟨c :: pre, post, by simp [hp]⟩
    · rintro ⟨pre, post, hp⟩
      cases pre with
      | nil =>
        exact Or.inl ⟨post, by simpa using hp⟩
      | cons p ps =>
        injection hp with h1 h2
        exact Or.inr ⟨ps, post, h2⟩

theorem strIncludes_iff (hay needle : String) :
    strIncludes hay needle = true ↔ CISubstr needle hay := by
  simp [strIncludes, CISubstr, containsCs_iff]

theorem strIncludes_empty (hay : String) : strIncludes hay "" = true := by
  have : lowerStr "" = [] := rfl
  rw [strIncludes, this]
  cases lowerStr hay with
  | nil => rfl
  | cons c rest => simp [containsCs, startsWithCs]

/-- The doctor-record lookup of `fetchAppointments` (AppointmentList.tsx,
lines 49-53): `doctors.select(id).eq(user_id, user.id).single()`.
`.single()` yields data only when exactly one row matches. -/
def resolveDoctorId (doctors : List Doctor) (uid : String) : Option String :=
  match doctors.filter (fun d => d.user_id == uid) with
  | [d] => some d.id
  | _ => none

/-- The role-dependent query filter of `fetchAppointments`
(AppointmentList.tsx, lines 44-58): a patient sees rows with matching
`patient_id`; a doctor sees rows with matching `doctor_id` when the doctor
record resolves, and the filter is skipped otherwise (`if (doctorData)`);
any other role gets the unfiltered table. -/
def roleScopedAppointments (user : User) (store : Store) : List Appointment :=
  match user.role with
  | Role.patient => store.appointments.filter (fun a => a.patient_id == user.id)
  | Role.doctor =>
    match resolveDoctorId store.doctors user.id with
    | some did => store.appointments.filter (fun a => a.doctor_id == did)
    | none => store.appointments
  | Role.admin => store.appointments

/-- The ordering used by `query.order(created_at, { ascending: false })`
(AppointmentList.tsx, line 60): larger creation timestamps first. -/
def createdDescRel (x y : Appointment) : Prop :=
  y.created_at ≤ x.created_at

instance : DecidableRel createdDescRel :=
  fun x y => Nat.decLe y.created_at x.created_at

instance : IsTotal Appointment createdDescRel :=
  ⟨fun x y => (Nat.le_total y.created_at x.created_at).imp id id⟩

instance : IsTrans Appointment createdDescRel :=
  ⟨fun _ _ _ h1 h2 => Nat.le_trans h2 h1⟩

/-- Models `fetchAppointments` (AppointmentList.tsx, lines 29-69): the role-scoped
rows ordered by creation time, descending. -/
def listFor (user : User) (store : Store) : List Appointment :=
  List.insertionSort createdDescRel (roleScopedAppointments user store)

/-- Models `updateAppointmentStatus` (AppointmentList.tsx, lines 71-86): the update
call `appointments.update({status}).eq(id, appointmentId)` sets the status of
every row whose id matches, with no transition validation. -/
def updateAppointmentStatus (store : Store) (appointmentId : String)
    (status : ApptStatus) : Store :=
  { store with
    appointments := store.appointments.map fun a =>
      if a.id == appointmentId then { a with status := status } else a }

/-- The status-action buttons rendered by AppointmentList (AppointmentList.tsx,
lines 218-253): the new statuses a user of the given role is offered on an
appointment in the given status. -/
def appointmentActions (role : Role) (status : ApptStatus) : List ApptStatus :=
  match role, status with
  | Role.doctor, ApptStatus.pending => [ApptStatus.confirmed, ApptStatus.cancelled]
  | Role.doctor, ApptStatus.confirmed => [ApptStatus.completed]
  | Role.patient, ApptStatus.pending => [ApptStatus.cancelled]
  | _, _ => []

/-- Modelled from the spec: the (from, to, actor) transition table of the
AppointmentWorkflow state machine (spec section 4.4); the source has no
data-layer transition check, so the table is taken from the spec for
comparison with the UI gating. -/
def specLegalTransition (r : Role) (f t : ApptStatus) : Bool :=
  match r, f, t with
  | Role.doctor, ApptStatus.pending, ApptStatus.confirmed => true
  | Role.doctor, ApptStatus.pending, ApptStatus.cancelled => true
  | Role.patient, ApptStatus.pending, ApptStatus.cancelled => true
  | Role.doctor, ApptStatus.confirmed, ApptStatus.completed => true
  | _, _, _ => false

/-- The statuses reachable from a status through sequences of user-triggered
actions (the buttons of AppointmentList). -/
inductive ReachableStatus : ApptStatus → ApptStatus → Prop where
  | refl (s : ApptStatus) : ReachableStatus s s
  | step {s t u : ApptStatus} (r : Role) (h : t ∈ appointmentActions r s)
      (h2 : ReachableStatus t u) : ReachableStatus s u

/-- The status filter tabs of AppointmentList (AppointmentList.tsx, line 21):
the `all` tab or a specific status tab. -/
inductive StatusTab where
  | all
  | only (s : ApptStatus)
deriving DecidableEq

/-- Models `filteredAppointments` (AppointmentList.tsx, lines 114-116):
`filter === all || appointment.status === filter`. -/
def filteredAppointments (appointments : List Appointment)
    (tab : StatusTab) : List Appointment :=
  appointments.filter fun a =>
    match tab with
    | StatusTab.all => true
    | StatusTab.only s => a.status == s

/-- The booking form fields captured by BookAppointment
(src/unnamed/part_000, lines 213-217). -/
structure BookingForm where
  appointment_date : String
  appointment_time : String
  notes : Option String := none
deriving DecidableEq

/-- Models `fetchDoctor` of BookAppointment (src/unnamed/part_000, lines 243-263):
`doctors.eq(id, doctorId).eq(status, approved).single()`; data only when
exactly one approved row with that id exists, otherwise the page errors out
and no doctor is set. -/
def fetchDoctor (doctors : List Doctor) (doctorId : String) : Option Doctor :=
  match doctors.filter
      (fun d => d.id == doctorId && d.status == DoctorStatus.approved) with
  | [d] => some d
  | _ => none

/-- The row inserted by `onSubmit` of BookAppointment (src/unnamed/part_000,
lines 270-281): patient id, doctor id, date, time, notes and status pending.
`newId` and `now` model the store-assigned fresh id and creation timestamp. -/
def mkAppointment (u : User) (d : Doctor) (form : BookingForm)
    (newId : String) (now : Nat) : Appointment :=
  { id := newId
    patient_id := u.id
    doctor_id := d.id
    appointment_date := form.appointment_date
    appointment_time := form.appointment_time
    status := ApptStatus.pending
    notes := form.notes
    created_at := now }

/-- The create operation: `fetchDoctor` followed by `onSubmit` of
BookAppointment (src/unnamed/part_000, lines 243-293).  When the doctor does
not resolve, `onSubmit` is unreachable (the page navigates away and its guard
`if (!user || !doctor) return` would fire), so no row is inserted. -/
def createAppointment (store : Store) (u : User) (doctorId : String)
    (form : BookingForm) (newId : String) (now : Nat) :
    Store × Option Appointment :=
  match fetchDoctor store.doctors doctorId with
  | some d =>
    let appt := mkAppointment u d form newId now
    ({ store with appointments := store.appointments ++ [appt] }, some appt)
  | none => (store, none)

/-- A write request issued against the record store. -/
inductive StoreWrite where
  | updateAppt (apptId : String) (st : ApptStatus)
  | insertAppt (a : Appointment)
deriving DecidableEq

/-- Result of running an operation at its try/catch boundary: the component
appointment state the caller observes afterwards, the user-visible alert
messages raised, and the write requests issued against the store. -/
structure OpOutcome where
  state : List Appointment
  alerts : List String
  writes : List StoreWrite
deriving DecidableEq

/-- Models `updateAppointmentStatus` with its try/catch boundary
(AppointmentList.tsx, lines 71-86).  Exactly one update request is issued;
when the store reports an error the catch block leaves the component state
untouched and raises the single alert; on success the list is refetched. -/
def updateAppointmentStatusOp (u : User) (store : Store)
    (prevState : List Appointment) (apptId : String) (st : ApptStatus)
    (fails : Bool) : OpOutcome :=
  if fails then
    { state := prevState
      alerts := ["Failed to update appointment status"]
      writes := [StoreWrite.updateAppt apptId st] }
  else
    { state := listFor u (updateAppointmentStatus store apptId st)
      alerts := []
      writes := [StoreWrite.updateAppt apptId st] }

/-- Models `fetchAppointments` with its try/catch boundary (AppointmentList.tsx,
lines 29-69).  On error the catch block only logs to the console: the
component state is unchanged and no alert is raised; no write is issued. -/
def fetchAppointmentsOp (u : User) (store : Store)
    (prevState : List Appointment) (fails : Bool) : OpOutcome :=
  if fails then
    { state := prevState, alerts := [], writes := [] }
  else
    { state := listFor u store, alerts := [], writes := [] }

/-- Whether a day-of-week index (JavaScript `getDay`, 0 = Sunday) falls on a
weekend; models `isWeekend` of date-fns. -/
def isWeekendDow (dow : Nat) : Bool :=
  dow % 7 == 0 || dow % 7 == 6

/-- Models `getAvailableDates` of BookAppointment (src/unnamed/part_000, lines
296-308): among the 30 calendar days starting today, keep the non-weekend
ones.  Days are represented by their offset from today; `startDow` is the
day-of-week index of today, so day `i` has index `(startDow + i) % 7`. -/
def getAvailableDates (startDow : Nat) : List Nat :=
  (List.range 30).filter (fun i => !isWeekendDow ((startDow + i) % 7))

/-- The dates actually rendered by the date picker (src/unnamed/part_000,
line 407): `getAvailableDates().slice(0, 15)`. -/
def presentedDates (startDow : Nat) : List Nat :=
  (getAvailableDates startDow).take 15

/-- Models `timeSlots` of BookAppointment (src/unnamed/part_000, lines 311-314). -/
def timeSlots : List String :=
  ["09:00", "09:30", "10:00", "10:30", "11:00", "11:30",
   "14:00", "14:30", "15:00", "15:30", "16:00", "16:30", "17:00"]

/-- Two-digit zero-padded rendering of a number below 100. -/
def pad2 (n : Nat) : String :=
  if n < 10 then "0" ++ toString n else toString n

/-- Renders minutes-after-midnight as an HH:MM label. -/
def fmtMinutes (m : Nat) : String :=
  pad2 (m / 60) ++ ":" ++ pad2 (m % 60)

/-- Specification-side slot times: 09:00 to 11:30 and 14:00 to 17:00 at
30-minute intervals, as minutes after midnight. -/
def specSlotMinutes : List Nat :=
  ((List.range 6).map (fun k => 540 + 30 * k))
    ++ ((List.range 7).map (fun k => 840 + 30 * k))

/-- Sample patient user. -/
def samplePatient : User :=
  { id := "p1", email := "p@x.y", role := Role.patient, full_name := "Pat" }

/-- Sample user with the doctor role. -/
def sampleDoctorUser : User :=
  { id := "u1", email := "d@x.y", role := Role.doctor, full_name := "Doc Who" }

/-- Sample approved doctor record owned by `sampleDoctorUser`. -/
def sampleDoctorRec : Doctor :=
  { id := "d1", user_id := "u1", specialty := "Cardiology",
    status := DoctorStatus.approved }

/-- Sample appointment belonging to doctor record d1. -/
def apptOfD1 : Appointment :=
  { id := "a2", patient_id := "p1", doctor_id := "d1",
    status := ApptStatus.pending }

/-- Sample store holding the doctor record and one of its appointments. -/
def storeWithDoctor : Store :=
  { doctors := [sampleDoctorRec], appointments := [apptOfD1] }

/-- Sample appointment belonging to some other doctor record dX. -/
def apptOfOther : Appointment :=
  { id := "aX", patient_id := "p9", doctor_id := "dX",
    status := ApptStatus.pending }

/-- Sample store with no doctor record for `sampleDoctorUser` but with an
appointment of another doctor. -/
def storeNoDoctorRecord : Store :=
  { doctors := [], appointments := [apptOfOther] }

/-- Sample appointment already in the completed status. -/
def apptCompleted : Appointment :=
  { id := "a1", patient_id := "p1", doctor_id := "d1",
    status := ApptStatus.completed }

/-- Sample store holding only the completed appointment. -/
def storeCompleted : Store :=
  { doctors := [], appointments := [apptCompleted] }

/-- Sample user whose full name matches the directory search example. -/
def cardioUser : User :=
  { id := "u2", email := "c@x.y", role := Role.doctor,
    full_name := "Cardio Associates" }

/-- Sample approved doctor joined with `cardioUser`. -/
def cardioDoctor : Doctor :=
  { id := "d2", user_id := "u2", specialty := "General",
    status := DoctorStatus.approved, user := some cardioUser }

/-- Sample booking form input. -/
def sampleForm : BookingForm :=
  { appointment_date := "2025-03-10", appointment_time := "10:00" }

/-- C3: a doctor whose status is not approved never appears in
DoctorDirectory.list under any filter, and with all three filters empty the
list is exactly the approved doctors of the store. -/
theorem doctorDirectory_approved_only :
    ∀ (store : Store) (t s l : String),
      (∀ d ∈ doctorDirectoryList store t s l, d.status = DoctorStatus.approved) ∧
      (∀ d, d ∈ doctorDirectoryList store "" "" "" ↔
        (d ∈ store.doctors ∧ d.status = DoctorStatus.approved)) := by
  intro store t s l
  constructor
  · intro d hd
    have h1 : d ∈ fetchDoctors store := (List.mem_filter.mp hd).1
    have h2 := (List.mem_filter.mp h1).2
    simpa [beq_iff_eq] using h2
  · intro d
    constructor
    · intro hd
      have h1 := List.mem_filter.mp hd
      have h2 := List.mem_filter.mp h1.1
      exact ⟨h2.1, by simpa [beq_iff_eq] using h2.2⟩
    · rintro ⟨hmem, hst⟩
      apply List.mem_filter.mpr
      refine ⟨List.mem_filter.mpr ⟨hmem, by simp [beq_iff_eq, hst]⟩, ?_⟩
      simp [matchesSearch, strIncludes_empty]

/-- Witness for C3 at a concrete store. -/
theorem doctorDirectory_approved_only_witness :
    sampleDoctorRec.status = DoctorStatus.approved ∧
    (sampleDoctorRec ∈ doctorDirectoryList storeWithDoctor "" "" "" ↔
      (sampleDoctorRec ∈ storeWithDoctor.doctors ∧
        sampleDoctorRec.status = DoctorStatus.approved)) :=
  ⟨(doctorDirectory_approved_only storeWithDoctor "" "" "").1
      sampleDoctorRec (by decide),
   (doctorDirectory_approved_only storeWithDoctor "" "" "").2 sampleDoctorRec⟩

/-- C4: over any doctor list and any filters, a doctor (with its joined user
record) is in `filteredDoctors` iff the term is a case-insensitive substring
of the full name or of the specialty, and the specialty filter is empty or
equal, and the location filter is empty or equal. -/
theorem filteredDoctors_characterization :
    ∀ (doctors : List Doctor) (t s l : String) (d : Doctor) (u : User),
      d.user = some u →
      (d ∈ filteredDoctors doctors t s l ↔
        (d ∈ doctors ∧
          ((CISubstr t u.full_name ∨ CISubstr t d.specialty) ∧
            (s = "" ∨ d.specialty = s) ∧
            (l = "" ∨ d.location = l)))) := by
  intro doctors t s l d u hu
  rw [filteredDoctors, List.mem_filter]
  simp [matchesSearch, hu, strIncludes_iff, beq_iff_eq, and_assoc]

/-- Witness for C4 at the spec example: term CARDIO against a doctor named
Cardio Associates. -/
theorem filteredDoctors_characterization_witness :
    (cardioDoctor ∈ filteredDoctors [cardioDoctor] "CARDIO" "" "" ↔
      (cardioDoctor ∈ [cardioDoctor] ∧
        ((CISubstr "CARDIO" cardioUser.full_name ∨
            CISubstr "CARDIO" cardioDoctor.specialty) ∧
          ("" = "" ∨ cardioDoctor.specialty = "") ∧
          ("" = "" ∨ cardioDoctor.location = "")))) :=
  filteredDoctors_characterization [cardioDoctor] "CARDIO" "" ""
    cardioDoctor cardioUser rfl

/-- C6: the appointment list returned by `listFor` is ordered by creation
time, descending, and is a permutation of the role-scoped rows. -/
theorem listFor_sorted_desc :
    ∀ (u : User) (store : Store),
      List.Sorted createdDescRel (listFor u store) ∧
      List.Perm (listFor u store) (roleScopedAppointments u store) := by
  intro u store
  exact ⟨List.sorted_insertionSort createdDescRel _,
    List.perm_insertionSort createdDescRel _⟩

/-- Every status offered by an action button differs from pending. -/
theorem actions_never_pending :
    ∀ (r : Role) (a b : ApptStatus),
      b ∈ appointmentActions r a → b ≠ ApptStatus.pending := by
  decide

/-- C7: through the user-triggered actions, pending never steps directly to
completed, completed and cancelled are terminal, and no reachable status is
pending once the status has left pending. -/
theorem workflow_temporal_safety :
    (∀ r : Role, ApptStatus.completed ∉ appointmentActions r ApptStatus.pending) ∧
    (∀ (r : Role) (t : ApptStatus),
      t ∉ appointmentActions r ApptStatus.completed ∧
      t ∉ appointmentActions r ApptStatus.cancelled) ∧
    (∀ s u : ApptStatus, ReachableStatus s u → s ≠ ApptStatus.pending →
      u ≠ ApptStatus.pending) := by
  refine ⟨by decide, by decide, ?_⟩
  intro s u hr
  induction hr with
  | refl s => exact fun hs => hs
  | step r h h2 ih =>
    intro _
    exact ih (actions_never_pending _ _ _ h)

/-- Witness for C7: the pending to completed step is absent for the doctor
role, and completed is reachable from confirmed yet differs from pending. -/
theorem workflow_temporal_safety_witness :
    ApptStatus.completed ∉ appointmentActions Role.doctor ApptStatus.pending ∧
    ApptStatus.completed ≠ ApptStatus.pending :=
  ⟨workflow_temporal_safety.1 Role.doctor,
   workflow_temporal_safety.2.2 ApptStatus.confirmed ApptStatus.completed
     (ReachableStatus.step Role.doctor (by decide) (ReachableStatus.refl _))
     (by decide)⟩

/-- C1 counterexample: the transition completed to pending is illegal per the
state machine, yet `updateAppointmentStatus` persists it without error and
does not leave the appointment unchanged. -/
theorem updateStatus_no_validation_cex :
    updateAppointmentStatus storeCompleted "a1" ApptStatus.pending ≠
      storeCompleted := by
  decide

/-- C1 amended: `updateAppointmentStatus` persists any requested status with
no transition validation, and transition legality is enforced only by the
action buttons of the UI, which offer exactly the legal (from, to, actor)
transitions of the workflow table. -/
theorem updateStatus_unconditional_ui_gated :
    (∀ (store : Store) (apptId : String) (st : ApptStatus) (a : Appointment),
      a ∈ store.appointments → a.id = apptId →
      { a with status := st } ∈
        (updateAppointmentStatus store apptId st).appointments) ∧
    (∀ (r : Role) (f t : ApptStatus),
      t ∈ appointmentActions r f ↔ specLegalTransition r f t = true) := by
  constructor
  · intro store apptId st a ha hid
    have hfa : (fun x : Appointment =>
        if x.id == apptId then { x with status := st } else x) a
        = { a with status := st } := by
      simp [hid]
    have hm := List.mem_map_of_mem
      (fun x : Appointment =>
        if x.id == apptId then { x with status := st } else x) ha
    rw [hfa] at hm
    exact hm
  · decide

/-- Witness for C1 amended at a concrete store and transition. -/
theorem updateStatus_unconditional_ui_gated_witness :
    { apptCompleted with status := ApptStatus.pending } ∈
      (updateAppointmentStatus storeCompleted "a1" ApptStatus.pending).appointments ∧
    (ApptStatus.confirmed ∈ appointmentActions Role.doctor ApptStatus.pending ↔
      specLegalTransition Role.doctor ApptStatus.pending ApptStatus.confirmed = true) :=
  ⟨updateStatus_unconditional_ui_gated.1 storeCompleted "a1" ApptStatus.pending
      apptCompleted (by decide) rfl,
   updateStatus_unconditional_ui_gated.2 Role.doctor ApptStatus.pending
      ApptStatus.confirmed⟩

/-- C2 counterexample: a doctor-role user with no Doctor record gets the
unfiltered appointment table, not an empty result; the list even contains an
appointment of another doctor. -/
theorem listFor_missing_doctor_cex :
    sampleDoctorUser.role = Role.doctor ∧
    resolveDoctorId storeNoDoctorRecord.doctors sampleDoctorUser.id = none ∧
    listFor sampleDoctorUser storeNoDoctorRecord ≠ [] ∧
    apptOfOther ∈ listFor sampleDoctorUser storeNoDoctorRecord := by
  decide

/-- C2 amended: when the Doctor record of a doctor-role user resolves, the
list holds only appointments with that record id; when no Doctor record
resolves, the doctor filter is skipped and the list holds every appointment
of the store. -/
theorem listFor_doctor_scoping :
    ∀ (u : User) (store : Store) (did : String),
      u.role = Role.doctor →
      ((resolveDoctorId store.doctors u.id = some did →
        ∀ a ∈ listFor u store, a.doctor_id = did) ∧
       (resolveDoctorId store.doctors u.id = none →
        ∀ a, a ∈ listFor u store ↔ a ∈ store.appointments)) := by
  intro u store did hrole
  have hperm : ∀ a : Appointment,
      a ∈ listFor u store ↔ a ∈ roleScopedAppointments u store := fun a =>
    (List.perm_insertionSort createdDescRel
      (roleScopedAppointments u store)).mem_iff
  constructor
  · intro hres a ha
    have hmem := (hperm a).mp ha
    simp only [roleScopedAppointments, hrole, hres] at hmem
    simpa [beq_iff_eq] using (List.mem_filter.mp hmem).2
  · intro hres a
    rw [hperm a]
    simp only [roleScopedAppointments, hrole, hres]

/-- Witness for C2 amended at a concrete store holding the Doctor record. -/
theorem listFor_doctor_scoping_witness :
    apptOfD1.doctor_id = "d1" :=
  (listFor_doctor_scoping sampleDoctorUser storeWithDoctor "d1" rfl).1
    (by decide) apptOfD1 (by decide)

/-- When `fetchDoctor` resolves a doctor, that doctor is a store row with the
requested id and the approved status. -/
theorem fetchDoctor_some (doctors : List Doctor) (doctorId : String)
    (d : Doctor) (h : fetchDoctor doctors doctorId = some d) :
    d ∈ doctors ∧ d.id = doctorId ∧ d.status = DoctorStatus.approved := by
  rw [fetchDoctor] at h
  cases hlst : doctors.filter
      (fun x => x.id == doctorId && x.status == DoctorStatus.approved) with
  | nil =>
    rw [hlst] at h
    exact absurd h (by simp)
  | cons d0 rest =>
    cases rest with
    | nil =>
      rw [hlst] at h
      have hd0 : d0 = d := by simpa using h
      subst hd0
      have hmem : d0 ∈ doctors.filter
          (fun x => x.id == doctorId && x.status == DoctorStatus.approved) := by
        rw [hlst]; exact List.mem_singleton_self d0
      have hmf := List.mem_filter.mp hmem
      have h2 := hmf.2
      simp only [Bool.and_eq_true, beq_iff_eq] at h2
      exact ⟨hmf.1, h2.1, h2.2⟩
    | cons d1 rest1 =>
      rw [hlst] at h
      exact absurd h (by simp)

/-- When no approved doctor of the store carries the requested id,
`fetchDoctor` resolves nothing. -/
theorem fetchDoctor_none (doctors : List Doctor) (doctorId : String)
    (h : ∀ d ∈ doctors, ¬(d.id = doctorId ∧ d.status = DoctorStatus.approved)) :
    fetchDoctor doctors doctorId = none := by
  have hnil : doctors.filter
      (fun x => x.id == doctorId && x.status == DoctorStatus.approved) = [] := by
    rw [List.filter_eq_nil_iff]
    intro d hd
    have := h d hd
    simpa [beq_iff_eq, Bool.and_eq_true, not_and] using this
  rw [fetchDoctor, hnil]

/-- C5: booking against a resolvable approved doctor inserts exactly one new
appointment with status pending referencing the patient and the doctor; when
no approved doctor carries the requested id, nothing is created. -/
theorem create_pending_or_fails :
    ∀ (store : Store) (u : User) (doctorId : String) (form : BookingForm)
      (newId : String) (now : Nat),
      (∀ d, fetchDoctor store.doctors doctorId = some d →
        d.id = doctorId ∧ d.status = DoctorStatus.approved ∧
        createAppointment store u doctorId form newId now =
          ({ store with appointments :=
              store.appointments ++ [mkAppointment u d form newId now] },
            some (mkAppointment u d form newId now)) ∧
        (mkAppointment u d form newId now).status = ApptStatus.pending ∧
        (mkAppointment u d form newId now).patient_id = u.id ∧
        (mkAppointment u d form newId now).doctor_id = d.id) ∧
      ((∀ d ∈ store.doctors,
          ¬(d.id = doctorId ∧ d.status = DoctorStatus.approved)) →
        createAppointment store u doctorId form newId now = (store, none)) := by
  intro store u doctorId form newId now
  constructor
  · intro d hd
    obtain ⟨-, hid, hst⟩ := fetchDoctor_some store.doctors doctorId d hd
    refine ⟨hid, hst, ?_, rfl, rfl, rfl⟩
    simp only [createAppointment, hd]
  · intro h
    simp only [createAppointment, fetchDoctor_none store.doctors doctorId h]

/-- Witness for C5 at a concrete store, patient and approved doctor. -/
theorem create_pending_or_fails_witness :
    sampleDoctorRec.id = "d1" ∧
    sampleDoctorRec.status = DoctorStatus.approved ∧
    createAppointment storeWithDoctor samplePatient "d1" sampleForm "a9" 5 =
      ({ storeWithDoctor with appointments :=
          storeWithDoctor.appointments ++
            [mkAppointment samplePatient sampleDoctorRec sampleForm "a9" 5] },
        some (mkAppointment samplePatient sampleDoctorRec sampleForm "a9" 5)) ∧
    (mkAppointment samplePatient sampleDoctorRec sampleForm "a9" 5).status =
      ApptStatus.pending ∧
    (mkAppointment samplePatient sampleDoctorRec sampleForm "a9" 5).patient_id =
      samplePatient.id ∧
    (mkAppointment samplePatient sampleDoctorRec sampleForm "a9" 5).doctor_id =
      sampleDoctorRec.id :=
  (create_pending_or_fails storeWithDoctor samplePatient "d1" sampleForm "a9" 5).1
    sampleDoctorRec (by decide)

/-- C8 counterexample: a failing fetch of the appointment list surfaces no
user-visible message at all (the catch block only logs), contradicting the
single-user-visible-message policy for that operation. -/
theorem fetch_error_no_alert_cex :
    ¬((fetchAppointmentsOp sampleDoctorUser storeNoDoctorRecord [] true).alerts.length
      = 1) := by
  decide

/-- C8 amended: a failing status update is caught at the boundary, leaves the
observed appointment state unchanged, raises exactly the one alert message
and issues exactly one write request (no retry); a failing list fetch is
caught, leaves the state unchanged and raises no alert. -/
theorem op_error_boundary :
    ∀ (u : User) (store : Store) (prev : List Appointment)
      (apptId : String) (st : ApptStatus),
      (updateAppointmentStatusOp u store prev apptId st true).state = prev ∧
      (updateAppointmentStatusOp u store prev apptId st true).alerts =
        ["Failed to update appointment status"] ∧
      (updateAppointmentStatusOp u store prev apptId st true).writes =
        [StoreWrite.updateAppt apptId st] ∧
      (fetchAppointmentsOp u store prev true).state = prev ∧
      (fetchAppointmentsOp u store prev true).alerts = [] := by
  intro u store prev apptId st
  exact ⟨rfl, rfl, rfl, rfl, rfl⟩

/-- C9: for every weekday index of today, the presented booking dates are
non-weekend days within the next 30 days, a day in that window is presented
exactly when it is a non-weekend day preceded by fewer than 15 such days, and
the time slots are exactly 09:00 to 11:30 and 14:00 to 17:00 at 30-minute
intervals. -/
theorem booking_dates_and_slots :
    ∀ startDow : Nat, startDow < 7 →
      (∀ i ∈ presentedDates startDow,
        i < 30 ∧ isWeekendDow ((startDow + i) % 7) = false) ∧
      (∀ i, i < 30 →
        (i ∈ presentedDates startDow ↔
          (isWeekendDow ((startDow + i) % 7) = false ∧
            (List.range i).countP
              (fun j => !isWeekendDow ((startDow + j) % 7)) < 15))) ∧
      timeSlots = specSlotMinutes.map fmtMinutes := by
  have hslots : timeSlots = specSlotMinutes.map fmtMinutes := by decide
  have hmain : ∀ s, s < 7 →
      (∀ i ∈ presentedDates s,
        i < 30 ∧ isWeekendDow ((s + i) % 7) = false) ∧
      (∀ i, i < 30 →
        (i ∈ presentedDates s ↔
          (isWeekendDow ((s + i) % 7) = false ∧
            (List.range i).countP
              (fun j => !isWeekendDow ((s + j) % 7)) < 15))) := by
    decide
  intro s hs
  exact ⟨(hmain s hs).1, (hmain s hs).2, hslots⟩

/-- Witness for C9 with today on a Wednesday and day offset 5. -/
theorem booking_dates_and_slots_witness :
    (5 ∈ presentedDates 3 ↔
      (isWeekendDow ((3 + 5) % 7) = false ∧
        (List.range 5).countP (fun j => !isWeekendDow ((3 + j) % 7)) < 15)) :=
  (booking_dates_and_slots 3 (by decide)).2.1 5 (by decide)

/-- C10: the all tab displays the fetched list unchanged, and a specific
status tab displays exactly the fetched appointments with that status. -/
theorem tabFilter_characterization :
    ∀ (l : List Appointment),
      filteredAppointments l StatusTab.all = l ∧
      (∀ (s : ApptStatus) (a : Appointment),
        a ∈ filteredAppointments l (StatusTab.only s) ↔ (a ∈ l ∧ a.status = s)) := by
  intro l
  constructor
  · exact List.filter_eq_self.mpr (fun a _ => rfl)
  · intro s a
    simp [filteredAppointments, List.mem_filter, beq_iff_eq]

end DocSpot
